import Mathlib

/-!
Verification of the LRU slot cache (`NewLRUCache` in the repository's asset
manager module, served alongside `server.go`).  The cache state, the `_get`
operation (hit path, insert-with-room path, evict-and-retry path), the wrapped
producer `deleteThenValue`, and the `print` traversal are embedded below,
statement by statement, following the TypeScript source.  JavaScript-specific
behaviour is made explicit: string truthiness (empty string and `null` are
falsy), property-key coercion of `null`, and the `TypeError` raised by reading
or writing a field of an absent (`undefined`) record entry.
-/

namespace RelSim

/-- Truthiness of a JS `string | null` value: `null` and `""` are falsy. -/
def truthy : Option String → Bool
  | none => false
  | some s => s != ""

/-- JS property-key coercion for a `string | null` index: `null` indexes
the property named `"null"`. -/
def jsKey : Option String → String
  | none => "null"
  | some s => s

/-- One cache line, mirroring the source's `{prev, next, key, value}` slot
objects. `prev`/`next` hold a key or `null`. -/
structure Slot (V : Type) where
  prev : Option String
  next : Option String
  key : String
  value : V
deriving Repr, DecidableEq

/-- The closure state of `NewLRUCache`: the key → slot record, the two ends of
the recency chain, and the occupancy counter. -/
structure CacheState (V : Type) where
  slots : List (String × Slot V)
  lruFront : Option String
  lruBack : Option String
  occupancy : Int
deriving Repr, DecidableEq

/-- The freshly constructed cache: empty record, both chain ends `null`,
occupancy `0`. -/
def newCache (V : Type) : CacheState V :=
  { slots := [], lruFront := none, lruBack := none, occupancy := 0 }

/-- Reading `slots[k]`: the first binding for `k`, if any. -/
def lookupSlot {V : Type} : List (String × Slot V) → String → Option (Slot V)
  | [], _ => none
  | p :: r, k => if p.1 = k then some p.2 else lookupSlot r k

/-- The JS `key in t.slots` test. -/
def hasKey {V : Type} (m : List (String × Slot V)) (k : String) : Bool :=
  (lookupSlot m k).isSome

/-- Mutating the slot stored under `k` in place (the entry keeps its position
in the record). -/
def updateSlot {V : Type} (m : List (String × Slot V)) (k : String)
    (f : Slot V → Slot V) : List (String × Slot V) :=
  m.map fun p => if p.1 = k then (p.1, f p.2) else p

/-- The JS `delete t.slots[k]`. -/
def eraseSlot {V : Type} (m : List (String × Slot V)) (k : String) :
    List (String × Slot V) :=
  m.filter fun p => p.1 ≠ k

/-- The JS statement `t.slots[k].prev = p`: a `TypeError` (modelled as `none`)
when `k` is absent, since the field write would dereference `undefined`. -/
def setPrev {V : Type} (m : List (String × Slot V)) (k : String)
    (p : Option String) : Option (List (String × Slot V)) :=
  if hasKey m k then some (updateSlot m k fun s => { s with prev := p }) else none

/-- The JS statement `t.slots[k].next = n`, failing on an absent key. -/
def setNext {V : Type} (m : List (String × Slot V)) (k : String)
    (n : Option String) : Option (List (String × Slot V)) :=
  if hasKey m k then some (updateSlot m k fun s => { s with next := n }) else none

/-- Observable callback invocations during a `_get` call: each `deleteFn(k, v)`
call and each original `valueFn(elem, slotId)` call is recorded. -/
inductive Event (V : Type) where
  | release (k : String) (v : V)
  | produce (slotId : Int)
deriving Repr, DecidableEq

/-- The trace of callback invocations, in execution order. -/
abbrev Trace (V : Type) := List (Event V)

/-- Failure of a `_get` call, carrying the trace accumulated before the fault:
`typeError` models a JS `TypeError` from dereferencing an absent slot, and
`outOfFuel` marks exhaustion of the recursion bound (never reached here). -/
inductive Err (V : Type) where
  | typeError (tr : Trace V)
  | outOfFuel (tr : Trace V)
deriving Repr, DecidableEq

/-- The producer argument `valFn` of `_get`, instrumented: it receives the
element, the slot id and the trace so far, and returns the produced value and
the extended trace. -/
abbrev Producer (T V : Type) := T → Int → Trace V → V × Trace V

/-- The instrumented original producer: calling it records one `produce` event
and yields `valueFn(elem, slotId)`. -/
def baseProducer {T V : Type} (valueFn : T → Int → V) : Producer T V :=
  fun e s tr => (valueFn e s, tr ++ [Event.produce s])

/-- The wrapped producer built on the eviction path (`deleteThenValue` in the
source), projected to the sequential trace model: when a releaser is
configured it calls `deleteFn(back.key, back.value)` again and then — directly,
or chained behind the returned awaitable — calls the original `valueFn`. -/
def wrapProducer {T V : Type} (withReleaser : Bool) (valueFn : T → Int → V)
    (backKey : String) (backValue : V) : Producer T V :=
  fun e s tr =>
    if withReleaser then
      (valueFn e s, tr ++ [Event.release backKey backValue, Event.produce s])
    else
      (valueFn e s, tr ++ [Event.produce s])

/-- The `_get` method, statement by statement.  `fuel` bounds the source's
self-recursion (the evict path re-enters `_get` once, so any fuel ≥ 2 suffices
from the public entry point).  `withReleaser` records whether the optional
`deleteFn` argument was supplied; each of its invocations appends a
`release` event carrying the arguments it receives.  Reads of `slot.field` are
re-read from the record after each mutation because the source's `slot` binding
aliases the live record entry. -/
def getAux {T V : Type} : Nat → Int → (T → String) → (T → Int → V) → Bool →
    Producer T V → T → CacheState V → Trace V →
    Except (Err V) (V × CacheState V × Trace V)
  | 0, _, _, _, _, _, _, _, tr => .error (.outOfFuel tr)
  | fuel + 1, capacity, keyFn, valueFn, withReleaser, valFn, element, st, tr =>
    -- const key = keyFn(element);
    let key := keyFn element
    match lookupSlot st.slots key with
    | some slot₀ =>
      -- Hit path: move the requested slot to the front of the queue.
      -- if (slot.prev) { t.slots[slot.prev].next = slot.next; }
      match (if truthy slot₀.prev
             then setNext st.slots (jsKey slot₀.prev) slot₀.next
             else some st.slots) with
      | none => .error (.typeError tr)
      | some m₁ =>
        match lookupSlot m₁ key with
        | none => .error (.typeError tr)
        | some slot₁ =>
          -- if (slot.next) { t.slots[slot.next].prev = slot.prev; }
          match (if truthy slot₁.next
                 then setPrev m₁ (jsKey slot₁.next) slot₁.prev
                 else some m₁) with
          | none => .error (.typeError tr)
          | some m₂ =>
            -- t.slots[t.lruFront!].prev = key;
            match setPrev m₂ (jsKey st.lruFront) (some key) with
            | none => .error (.typeError tr)
            | some m₃ =>
              -- slot.next = t.lruFront; slot.prev = null; t.lruFront = key;
              let m₄ := updateSlot m₃ key fun s => { s with next := st.lruFront }
              let m₅ := updateSlot m₄ key fun s => { s with prev := none }
              match lookupSlot m₅ key with
              | none => .error (.typeError tr)
              | some slotF =>
                -- return slot.value;
                .ok (slotF.value,
                     { slots := m₅, lruFront := some key,
                       lruBack := st.lruBack, occupancy := st.occupancy }, tr)
    | none =>
      if st.occupancy < capacity then
        -- Insert at the front.
        let pr := valFn element st.occupancy tr
        -- const slot = { prev: null, next: t.lruFront, key, value: valFn(...) };
        let slotNew : Slot V :=
          { prev := none, next := st.lruFront, key := key, value := pr.1 }
        -- if (t.lruFront) { t.slots[t.lruFront].prev = key; }
        match (if truthy st.lruFront
               then setPrev st.slots (jsKey st.lruFront) (some key)
               else some st.slots) with
        | none => .error (.typeError pr.2)
        | some m₁ =>
          -- if (!t.lruBack) { t.lruBack = key; }
          let back₁ := if truthy st.lruBack then st.lruBack else some key
          -- t.slots[key] = slot; t.occupancy += 1; t.lruFront = key;
          .ok (pr.1,
               { slots := (key, slotNew) :: m₁, lruFront := some key,
                 lruBack := back₁, occupancy := st.occupancy + 1 }, pr.2)
      else
        -- Pop the back: const back = t.slots[t.lruBack!];
        match lookupSlot st.slots (jsKey st.lruBack) with
        | none => .error (.typeError tr)
        | some back =>
          -- if (deleteFn) { deleteFn(back.key, back.value); }
          let tr₁ := if withReleaser
                     then tr ++ [Event.release back.key back.value] else tr
          -- if (back.prev) { t.slots[back.prev].next = null; }
          match (if truthy back.prev
                 then setNext st.slots (jsKey back.prev) none
                 else some st.slots) with
          | none => .error (.typeError tr₁)
          | some m₁ =>
            -- delete t.slots[t.lruBack!]; t.lruBack = back.prev; t.occupancy -= 1;
            let st' : CacheState V :=
              { slots := eraseSlot m₁ (jsKey st.lruBack),
                lruFront := st.lruFront, lruBack := back.prev,
                occupancy := st.occupancy - 1 }
            -- return t._get(element, deleteThenValue);
            getAux fuel capacity keyFn valueFn withReleaser
              (wrapProducer withReleaser valueFn back.key back.value)
              element st' tr₁

/-- The public `get(element)` method: `t._get(element, valueFn)` with the
instrumented original producer.  Fuel `2` covers the one self-recursion the
evict path performs. -/
def cacheGet {T V : Type} (capacity : Int) (keyFn : T → String)
    (valueFn : T → Int → V) (withReleaser : Bool) (element : T)
    (st : CacheState V) (tr : Trace V) :
    Except (Err V) (V × CacheState V × Trace V) :=
  getAux 2 capacity keyFn valueFn withReleaser (baseProducer valueFn)
    element st tr

/-- Outcome of the `print` traversal: the keys pushed in visit order, a
`TypeError` on a dangling link, or failure to finish within the step bound
(the source's `while (rover)` loop would run forever). -/
inductive PrintRes where
  | ok (keys : List String)
  | typeError
  | diverge
deriving Repr, DecidableEq

/-- The `while (rover)` loop of `print`, with a step bound: each iteration
pushes `t.slots[rover].key` and advances `rover = t.slots[rover].next`. -/
def printAux {V : Type} : Nat → List (String × Slot V) → Option String →
    List String → PrintRes
  | 0, _, rover, acc => if truthy rover then .diverge else .ok acc
  | fuel + 1, m, rover, acc =>
    if truthy rover then
      match lookupSlot m (jsKey rover) with
      | none => .typeError
      | some s => printAux fuel m s.next (acc ++ [s.key])
    else .ok acc

/-- The public `print()` method: an early empty return when `t.lruFront` is
falsy, otherwise the chain traversal bounded by `fuel` steps. -/
def cachePrint {V : Type} (fuel : Nat) (st : CacheState V) : PrintRes :=
  if !truthy st.lruFront then .ok []
  else printAux fuel st.slots st.lruFront []

/-- Driver for concrete scenarios: issue one `get` per key in order, threading
state and trace, with `T := String`, `keyFn` the identity and
`valueFn(elem, slotId) = slotId` (so a stored value names the slot index the
producer received). -/
def runGets (capacity : Int) (withReleaser : Bool) :
    List String → CacheState Int → Trace Int →
    Except (Err Int) (CacheState Int × Trace Int)
  | [], st, tr => .ok (st, tr)
  | k :: ks, st, tr =>
    match cacheGet capacity id (fun _ s => s) withReleaser k st tr with
    | .error e => .error e
    | .ok (_, st', tr') => runGets capacity withReleaser ks st' tr'

/-- Spec invariant 3 on the recency chain, from the spec's words: for every
entry, a `prev` link must point at an entry whose `next` points back, and a
`next` link at an entry whose `prev` points back (no dangling, duplicate or
self links). -/
def linksConsistent {V : Type} (st : CacheState V) : Bool :=
  st.slots.all fun p =>
    (match p.2.prev with
     | none => true
     | some q =>
       match lookupSlot st.slots q with
       | some s => s.next == some p.1
       | none => false) &&
    (match p.2.next with
     | none => true
     | some q =>
       match lookupSlot st.slots q with
       | some s => s.prev == some p.1
       | none => false)

/-- The key and the `key`/`value` fields of every record entry, in record
order — the data a hit is not allowed to disturb. -/
def keyVals {V : Type} (m : List (String × Slot V)) :
    List (String × String × V) :=
  m.map fun p => (p.1, p.2.key, p.2.value)

/-- The stored value under key `k`, if resident. -/
def valAt {V : Type} (m : List (String × Slot V)) (k : String) : Option V :=
  (lookupSlot m k).map Slot.value

/-! ### Asynchronous model of the wrapped producer

For the release-before-produce ordering the awaitable returned by the releaser
matters, so `deleteThenValue` is embedded once more over an explicit event
timeline: each callback reports the events it emits synchronously and, for an
asynchronous releaser, the events emitted when its awaitable resolves.  A
`.then` chain places the continuation's events after the resolution events. -/

/-- Timeline events for the asynchronous model. -/
inductive AEvent where
  | releaseStart
  | releaseComplete
  | produceStart
  | produceComplete
deriving Repr, DecidableEq

/-- The observable behaviour of one releaser invocation: the events it emits
synchronously, and — when it returns an awaitable (a truthy value) — the
events emitted when that awaitable resolves.  `resolution = none` models a
falsy (non-promise) return. -/
structure ReleaserCall where
  syncEvents : List AEvent
  resolution : Option (List AEvent)

/-- The wrapped producer `deleteThenValue` of the eviction path, in the
asynchronous model: call `deleteFn(back.key, back.value)`; if the returned
value is truthy (a promise) chain the original `valueFn` behind it with
`.then`, otherwise call `valueFn` directly; with no releaser configured just
call `valueFn`.  The second component is the timeline of emitted events. -/
def deleteThenValue {T V : Type} (deleteFn : Option (String → V → ReleaserCall))
    (valueFn : T → Int → List AEvent × V) (backKey : String) (backValue : V)
    (elem : T) (slotId : Int) : V × List AEvent :=
  match deleteFn with
  | some df =>
    let call := df backKey backValue
    match call.resolution with
    | some res =>
      let pr := valueFn elem slotId
      (pr.2, call.syncEvents ++ res ++ pr.1)
    | none =>
      let pr := valueFn elem slotId
      (pr.2, call.syncEvents ++ pr.1)
  | none =>
    let pr := valueFn elem slotId
    (pr.2, pr.1)

/-- The state reached by a capacity-1 cache after `get("x"); get("x")`: the
second, hitting `get` rewires the sole entry's `next` link onto itself. -/
def selfLoopState : CacheState Int :=
  { slots := [("x", { prev := none, next := some "x", key := "x", value := 0 })],
    lruFront := some "x", lruBack := some "x", occupancy := 1 }

/-- A capacity-1 cache holding only `"x"` (the state after one `get("x")`):
concrete input for the hit-path theorems. -/
def oneEntryState : CacheState Int :=
  { slots := [("x", { prev := none, next := none, key := "x", value := 0 })],
    lruFront := some "x", lruBack := some "x", occupancy := 1 }

/-- A concrete asynchronous releaser for the ordering witness: it starts
synchronously and its awaitable resolves with the completion event. -/
def asyncReleaser : String → Int → ReleaserCall :=
  fun _ _ => { syncEvents := [AEvent.releaseStart],
               resolution := some [AEvent.releaseComplete] }

/-- A concrete producer for the ordering witness: it records its start and its
completion and returns the slot id. -/
def recordingProducer : String → Int → List AEvent × Int :=
  fun _ s => ([AEvent.produceStart, AEvent.produceComplete], s)

/-! ### Helper lemmas on the slot record -/

theorem updateSlot_cons {V : Type} (p : String × Slot V)
    (r : List (String × Slot V)) (k : String) (f : Slot V → Slot V) :
    updateSlot (p :: r) k f =
      (if p.1 = k then (p.1, f p.2) else p) :: updateSlot r k f := rfl

theorem lookupSlot_cons {V : Type} (p : String × Slot V)
    (r : List (String × Slot V)) (k : String) :
    lookupSlot (p :: r) k = if p.1 = k then some p.2 else lookupSlot r k := rfl

theorem lookupSlot_updateSlot {V : Type} (m : List (String × Slot V))
    (k k' : String) (f : Slot V → Slot V) :
    lookupSlot (updateSlot m k f) k' =
      if k' = k then (lookupSlot m k).map f else lookupSlot m k' := by
  induction m with
  | nil => simp [lookupSlot, updateSlot]
  | cons p r ih =>
    by_cases hpk : p.1 = k
    · subst hpk
      by_cases hk' : k' = p.1
      · subst hk'
        simp [lookupSlot_cons, updateSlot_cons, ih]
      · simp [lookupSlot_cons, updateSlot_cons, hk', Ne.symm hk', ih]
    · by_cases hk' : k' = k
      · subst hk'
        simp [lookupSlot_cons, updateSlot_cons, hpk, ih]
      · simp [lookupSlot_cons, updateSlot_cons, hpk, hk', ih]

theorem keyVals_updateSlot {V : Type} (m : List (String × Slot V)) (k : String)
    (f : Slot V → Slot V) (hf : ∀ s, (f s).key = s.key ∧ (f s).value = s.value) :
    keyVals (updateSlot m k f) = keyVals m := by
  induction m with
  | nil => rfl
  | cons p r ih =>
    by_cases hpk : p.1 = k <;>
      simp [keyVals, updateSlot, hpk, (hf p.2).1, (hf p.2).2] <;>
      simpa [keyVals, updateSlot] using ih

theorem keyVals_of_setNext {V : Type} {m m' : List (String × Slot V)}
    {k : String} {n : Option String} (h : setNext m k n = some m') :
    keyVals m' = keyVals m := by
  unfold setNext at h
  split at h
  · cases h
    exact keyVals_updateSlot m k _ fun s => ⟨rfl, rfl⟩
  · cases h

theorem keyVals_of_setPrev {V : Type} {m m' : List (String × Slot V)}
    {k : String} {p : Option String} (h : setPrev m k p = some m') :
    keyVals m' = keyVals m := by
  unfold setPrev at h
  split at h
  · cases h
    exact keyVals_updateSlot m k _ fun s => ⟨rfl, rfl⟩
  · cases h

theorem keyVals_of_guardNext {V : Type} {m m' : List (String × Slot V)}
    {c : Bool} {k : String} {n : Option String}
    (h : (if c then setNext m k n else some m) = some m') :
    keyVals m' = keyVals m := by
  split at h
  · exact keyVals_of_setNext h
  · cases h; rfl

theorem keyVals_of_guardPrev {V : Type} {m m' : List (String × Slot V)}
    {c : Bool} {k : String} {p : Option String}
    (h : (if c then setPrev m k p else some m) = some m') :
    keyVals m' = keyVals m := by
  split at h
  · exact keyVals_of_setPrev h
  · cases h; rfl

theorem valAt_congr_of_keyVals {V : Type} :
    ∀ {m₁ m₂ : List (String × Slot V)}, keyVals m₁ = keyVals m₂ →
      ∀ k, valAt m₁ k = valAt m₂ k := by
  intro m₁
  induction m₁ with
  | nil =>
    intro m₂ h k
    cases m₂ with
    | nil => rfl
    | cons q r => simp [keyVals] at h
  | cons p r ih =>
    intro m₂ h k
    cases m₂ with
    | nil => simp [keyVals] at h
    | cons q r₂ =>
      simp only [keyVals, List.map_cons, List.cons.injEq, Prod.mk.injEq] at h
      obtain ⟨⟨hk1, _, hv⟩, htail⟩ := h
      by_cases hpk : p.1 = k
      · have hqk : q.1 = k := hk1.symm.trans hpk
        simp [valAt, lookupSlot, hpk, hqk, hv]
      · have hqk : ¬q.1 = k := fun hc => hpk (hk1.trans hc)
        simpa [valAt, lookupSlot, hpk, hqk] using ih htail k

/-- Symbolic execution of the hit path: when the looked-up key is resident and
`_get` returns normally, the returned value is the entry's stored value, the
trace is untouched (no producer or releaser call), occupancy and the back
pointer are unchanged, the front pointer moves to the hit key, and every
entry's key and value fields (and the record's key set) are preserved. -/
theorem getAux_hit_spec {T V : Type} (fuel : Nat) (capacity : Int)
    (keyFn : T → String) (valueFn : T → Int → V) (wr : Bool)
    (valFn : Producer T V) (elem : T) (st : CacheState V) (tr : Trace V)
    (slot : Slot V) (v : V) (st' : CacheState V) (tr' : Trace V)
    (hres : lookupSlot st.slots (keyFn elem) = some slot)
    (h : getAux (fuel + 1) capacity keyFn valueFn wr valFn elem st tr
          = .ok (v, st', tr')) :
    v = slot.value ∧ tr' = tr ∧ st'.occupancy = st.occupancy ∧
    st'.lruBack = st.lruBack ∧ st'.lruFront = some (keyFn elem) ∧
    keyVals st'.slots = keyVals st.slots := by
  simp only [getAux, hres] at h
  split at h
  · exact absurd h (by simp)
  · rename_i m₁ heq₁
    split at h
    · exact absurd h (by simp)
    · rename_i slot₁ heqL₁
      split at h
      · exact absurd h (by simp)
      · rename_i m₂ heq₂
        split at h
        · exact absurd h (by simp)
        · rename_i m₃ heq₃
          split at h
          · exact absurd h (by simp)
          · rename_i slotF heqF
            simp only [Except.ok.injEq, Prod.mk.injEq] at h
            obtain ⟨hv, hst', htr'⟩ := h
            subst hv hst' htr'
            have hkv : keyVals (updateSlot (updateSlot m₃ (keyFn elem)
                (fun s => { s with next := st.lruFront })) (keyFn elem)
                (fun s => { s with prev := none })) = keyVals st.slots := by
              rw [keyVals_updateSlot _ (keyFn elem)
                    (fun s => { s with prev := none }) (fun s => ⟨rfl, rfl⟩),
                  keyVals_updateSlot _ (keyFn elem)
                    (fun s => { s with next := st.lruFront }) (fun s => ⟨rfl, rfl⟩),
                  keyVals_of_setPrev heq₃, keyVals_of_guardPrev heq₂,
                  keyVals_of_guardNext heq₁]
            refine ⟨?_, rfl, rfl, rfl, rfl, hkv⟩
            have hval := valAt_congr_of_keyVals hkv (keyFn elem)
            rw [valAt, valAt, heqF, hres] at hval
            simpa using hval

/-- The `print` loop never leaves the self-linked entry of `selfLoopState`:
for every step bound it runs out of fuel, i.e. the source's `while (rover)`
loop never terminates on this state. -/
theorem printAux_selfLoop (fuel : Nat) :
    ∀ acc, printAux fuel selfLoopState.slots (some "x") acc = .diverge := by
  induction fuel with
  | zero => intro acc; rfl
  | succ n ih => intro acc; exact ih (acc ++ ["x"])

/-! ### Claim theorems -/

/-- Claim C1: refuted by the code.  With capacity 2, after `get("x")`,
`get("y")`, `get("x")` the hit-path promotion leaves `lruBack` still naming
`"x"`, so the subsequent `get("z")` evicts `"x"` (the most recently used
entry, as the `release "x"` events show) and then faults with a `TypeError`
reading the stale front pointer — instead of evicting `"y"`, giving `"z"`
slot 1 and leaving residents `{"x","z"}` in order `["z","x"]`. -/
theorem c1_promotion_protects_wrong_entry :
    (runGets 2 true ["x", "y", "x"] (newCache Int) []).map
        (fun p => (p.1.lruFront, p.1.lruBack)) = .ok (some "x", some "x") ∧
    runGets 2 true ["x", "y", "x", "z"] (newCache Int) [] =
      .error (.typeError [Event.produce 0, Event.produce 1,
        Event.release "x" 0, Event.release "x" 0, Event.produce 1]) :=
  ⟨rfl, rfl⟩

/-- Claim C2: refuted by the code.  A single `get("c")` on a full capacity-2
cache holding `a, b` records two `release` invocations for the one eviction of
`"a"` — once directly on the eviction path and once inside the wrapped
producer — before the single production. -/
theorem c2_releaser_invoked_twice_per_eviction :
    ((runGets 2 true ["a", "b"] (newCache Int) []).bind
        (fun p => cacheGet 2 id (fun _ s => s) true "c" p.1 [])).map
        (fun r => r.2.2) =
      .ok [Event.release "a" 0, Event.release "a" 0, Event.produce 1] := rfl

/-- Claim C3: refuted by the code.  The state reached by the public calls
`get("x"); get("x")` on a capacity-1 cache has the sole entry's `next` link
pointing at itself while its `prev` is empty, violating the chain-consistency
invariant (`P.next == this` and vice versa, no self links). -/
theorem c3_invariants_broken_after_front_hit :
    runGets 1 false ["x", "x"] (newCache Int) [] =
      .ok (selfLoopState, [Event.produce 0]) ∧
    (lookupSlot selfLoopState.slots "x").map Slot.next = some (some "x") ∧
    linksConsistent selfLoopState = false :=
  ⟨rfl, rfl, rfl⟩

/-- Claim C4: refuted by the code.  Capacity 2, inserts `a` (slot 0), `b`
(slot 1), then `c`: the evicted entry `a` held slot index 0 (its release event
carries value 0), but `c` is produced with slot index 1 — the occupancy after
the eviction, not the evicted entry's index — so residents `b` and `c` both
hold slot index 1 and index 0 is never reassigned. -/
theorem c4_new_entry_does_not_reuse_evicted_slot_index :
    (runGets 2 true ["a", "b", "c"] (newCache Int) []).map
        (fun p => (valAt p.1.slots "c", valAt p.1.slots "b", p.2)) =
      .ok (some 1, some 1,
        [Event.produce 0, Event.produce 1, Event.release "a" 0,
         Event.release "a" 0, Event.produce 1]) := rfl

/-- Claim C5 (confirmed): the wrapped producer of the eviction path awaits the
awaitable returned by the releaser and only then invokes the original
producer — on the emitted timeline, the release-completion event strictly
precedes the production-start event. -/
theorem c5_release_completes_before_produce_starts {T V : Type}
    (df : String → V → ReleaserCall) (valueFn : T → Int → List AEvent × V)
    (backKey : String) (backValue : V) (elem : T) (slotId : Int)
    (resInit prodRest : List AEvent) (v : V)
    (hasync : (df backKey backValue).resolution =
      some (resInit ++ [AEvent.releaseComplete]))
    (hprod : valueFn elem slotId = (AEvent.produceStart :: prodRest, v)) :
    ∃ pre post,
      (deleteThenValue (some df) valueFn backKey backValue elem slotId).2 =
        pre ++ AEvent.releaseComplete :: AEvent.produceStart :: post := by
  refine ⟨(df backKey backValue).syncEvents ++ resInit, prodRest, ?_⟩
  rcases hcall : df backKey backValue with ⟨sync, resolution⟩
  rw [hcall] at hasync
  simp only at hasync
  subst hasync
  simp [deleteThenValue, hcall, hprod, List.append_assoc]

/-- Witness for C5 at a concrete asynchronous releaser and recording
producer. -/
theorem c5_witness :
    ∃ pre post,
      (deleteThenValue (some asyncReleaser) recordingProducer "a" (0 : Int)
          "b" 0).2 =
        pre ++ AEvent.releaseComplete :: AEvent.produceStart :: post :=
  c5_release_completes_before_produce_starts asyncReleaser recordingProducer
    "a" 0 "b" 0 [] [AEvent.produceComplete] 0 rfl rfl

/-- Claim C6 (confirmed): when the requested key is resident, a completing
`get` returns the entry's stored value and appends no producer (or releaser)
event, and an immediately following `get` of the same element again returns
that same value with no producer event — the producer ran only at the
original insertion. -/
theorem c6_hit_returns_stored_value_without_producer {T V : Type}
    (capacity : Int) (keyFn : T → String) (valueFn : T → Int → V) (wr : Bool)
    (elem : T) (st : CacheState V) (tr : Trace V) (slot : Slot V)
    (v₁ v₂ : V) (st₁ st₂ : CacheState V) (tr₁ tr₂ : Trace V)
    (hres : lookupSlot st.slots (keyFn elem) = some slot)
    (h₁ : cacheGet capacity keyFn valueFn wr elem st tr = .ok (v₁, st₁, tr₁))
    (h₂ : cacheGet capacity keyFn valueFn wr elem st₁ tr₁ = .ok (v₂, st₂, tr₂)) :
    v₁ = slot.value ∧ v₂ = slot.value ∧ tr₁ = tr ∧ tr₂ = tr := by
  have h₁' : getAux (1 + 1) capacity keyFn valueFn wr (baseProducer valueFn)
      elem st tr = .ok (v₁, st₁, tr₁) := h₁
  obtain ⟨hv₁, htr₁, _, _, _, hkv₁⟩ :=
    getAux_hit_spec 1 capacity keyFn valueFn wr (baseProducer valueFn) elem
      st tr slot v₁ st₁ tr₁ hres h₁'
  have hval₁ : valAt st₁.slots (keyFn elem) = some slot.value := by
    rw [valAt_congr_of_keyVals hkv₁ (keyFn elem), valAt, hres]
    rfl
  obtain ⟨slot₂, hres₂, hvv⟩ : ∃ s₂, lookupSlot st₁.slots (keyFn elem) =
      some s₂ ∧ s₂.value = slot.value := by
    cases hl : lookupSlot st₁.slots (keyFn elem) with
    | none => rw [valAt, hl] at hval₁; simp at hval₁
    | some s₂ =>
      rw [valAt, hl] at hval₁
      simp at hval₁
      exact ⟨s₂, rfl, hval₁⟩
  have h₂' : getAux (1 + 1) capacity keyFn valueFn wr (baseProducer valueFn)
      elem st₁ tr₁ = .ok (v₂, st₂, tr₂) := h₂
  obtain ⟨hv₂, htr₂, _, _, _, _⟩ :=
    getAux_hit_spec 1 capacity keyFn valueFn wr (baseProducer valueFn) elem
      st₁ tr₁ slot₂ v₂ st₂ tr₂ hres₂ h₂'
  exact ⟨hv₁, hv₂.trans hvv, htr₁, htr₂.trans htr₁⟩

/-- Witness for C6: a capacity-1 cache holding `"x"` with value `0`, hit
twice. -/
theorem c6_witness :
    (0 : Int) = (Slot.mk none none "x" (0 : Int)).value ∧
    (0 : Int) = (Slot.mk none none "x" (0 : Int)).value ∧
    ([] : Trace Int) = [] ∧ ([] : Trace Int) = [] :=
  c6_hit_returns_stored_value_without_producer 1 id (fun _ s => s) false "x"
    oneEntryState [] (Slot.mk none none "x" 0) 0 0 selfLoopState selfLoopState
    [] [] rfl rfl rfl

/-- Claim C10 (confirmed): a completing `get` of a resident key changes
neither the occupancy, nor the back pointer, nor the record's keys or any
entry's `key`/`value` fields, and emits no callback event — only the
`prev`/`next` links and the front pointer are touched. -/
theorem c10_hit_path_frame {T V : Type} (capacity : Int) (keyFn : T → String)
    (valueFn : T → Int → V) (wr : Bool) (elem : T) (st : CacheState V)
    (tr : Trace V) (slot : Slot V) (v : V) (st' : CacheState V) (tr' : Trace V)
    (hres : lookupSlot st.slots (keyFn elem) = some slot)
    (h : cacheGet capacity keyFn valueFn wr elem st tr = .ok (v, st', tr')) :
    st'.occupancy = st.occupancy ∧ keyVals st'.slots = keyVals st.slots ∧
    st'.lruBack = st.lruBack ∧ tr' = tr := by
  have h' : getAux (1 + 1) capacity keyFn valueFn wr (baseProducer valueFn)
      elem st tr = .ok (v, st', tr') := h
  obtain ⟨_, htr, hocc, hback, _, hkv⟩ :=
    getAux_hit_spec 1 capacity keyFn valueFn wr (baseProducer valueFn) elem
      st tr slot v st' tr' hres h'
  exact ⟨hocc, hkv, hback, htr⟩

/-- Witness for C10: the hit on the capacity-1 single-entry cache. -/
theorem c10_witness :
    selfLoopState.occupancy = oneEntryState.occupancy ∧
    keyVals selfLoopState.slots = keyVals oneEntryState.slots ∧
    selfLoopState.lruBack = oneEntryState.lruBack ∧ ([] : Trace Int) = [] :=
  c10_hit_path_frame 1 id (fun _ s => s) false "x" oneEntryState []
    (Slot.mk none none "x" 0) 0 selfLoopState [] rfl rfl

/-- Claim C7: refuted by the code.  `selfLoopState` is reached by two public
`get("x")` calls on a capacity-1 cache, and on it the `print` traversal never
terminates: for every step bound it is still following the self link. -/
theorem c7_print_diverges_on_reachable_state :
    runGets 1 false ["x", "x"] (newCache Int) [] =
      .ok (selfLoopState, [Event.produce 0]) ∧
    ∀ fuel : Nat, cachePrint fuel selfLoopState = .diverge :=
  ⟨rfl, fun fuel => printAux_selfLoop fuel []⟩

/-- Claim C8: refuted by the code.  Evicting the sole entry of a capacity-1
cache clears `lruBack` but leaves `lruFront` naming the deleted key, so the
retry's insertion dereferences the absent entry and faults — while the same
insertion from a correctly emptied cache succeeds. -/
theorem c8_front_pointer_not_emptied_on_full_eviction :
    runGets 1 true ["a", "b"] (newCache Int) [] =
      .error (.typeError [Event.produce 0, Event.release "a" 0,
        Event.release "a" 0, Event.produce 0]) ∧
    cacheGet 1 id (fun _ s => s) true "b" (newCache Int) [] =
      .ok (0, { slots := [("b", { prev := none, next := none, key := "b",
                                  value := 0 })],
                lruFront := some "b", lruBack := some "b", occupancy := 1 },
           [Event.produce 0]) :=
  ⟨rfl, rfl⟩

/-- Claim C9: refuted by the code.  A capacity-0 cache neither rejects
construction nor passes `get` through: every `get` takes the eviction path
with no back entry and faults with a `TypeError` (reading the slot under the
coerced key of the `null` back pointer), with or without a releaser. -/
theorem c9_capacity_zero_get_faults :
    cacheGet 0 id (fun _ s => s) true "a" (newCache Int) [] =
      .error (.typeError []) ∧
    cacheGet 0 id (fun _ s => s) false "a" (newCache Int) [] =
      .error (.typeError []) :=
  ⟨rfl, rfl⟩

end RelSim
